import Mathlib

/-!
Verification of the custom-elements lazy loader
(src/custom-elements-lazy-loader.mjs).

The JavaScript source is shallowly embedded: DOM elements become a tree
type, the global custom-element registry becomes an association list,
the pluggable callbacks (filter, urlResolver, loader) become Lean
functions, and the asynchronous pipeline outcomes become explicit
result values.  Observable behaviour of a synchronous phase (which
filter invocations happen, which pipeline runs are triggered) is
modelled as a trace of events, faithful to the short-circuit evaluation
order of the source.
-/

namespace LazyLoader

/-- Element of the observed DOM tree.  The loader reads its tag identity,
its optional is-attribute (the role attribute) and its children
(`element.children`, the element children only; non-element DOM nodes
never appear in `children`). -/
inductive Element where
  | mk (tagName : String) (isAttr : Option String) (children : List Element)

/-- Tag identity of the element, as the DOM reports it (possibly upper
case, `Element.tagName` in the source). -/
def Element.tagName : Element → String
  | .mk t _ _ => t

/-- Value of the is-attribute: the getAttribute call for the role attribute in the source, which
returns the string value when present (possibly empty) and null when
absent. -/
def Element.isAttr : Element → Option String
  | .mk _ i _ => i

/-- Child elements of the element (`element.children`). -/
def Element.children : Element → List Element
  | .mk _ _ cs => cs

/-- Embedding of `String.prototype.toLowerCase()`: lower-case each
character. -/
def jsToLower (s : String) : String := ⟨s.data.map Char.toLower⟩

/-- Resolved names of an element, mirroring the ElementNames typedef of
the source: all fields lower-case, `isAttr` present exactly when the
element carried the role attribute. -/
structure ElementNames where
  elementName : String
  tagName : String
  isAttr : Option String
deriving DecidableEq, Repr

/-- Embedding of `#resolveNames`: the tag name is lower-cased; when
the role-attribute lookup yielded a string, the lower-cased attribute value
overrides `elementName` and is recorded in `isAttr`. -/
def resolveNames (e : Element) : ElementNames :=
  let tagName := jsToLower e.tagName
  match e.isAttr with
  | none => { elementName := tagName, tagName := tagName, isAttr := none }
  | some v =>
      { elementName := jsToLower v, tagName := tagName, isAttr := some (jsToLower v) }

/-- The fixed deny-list `INVALID_CUSTOM_ELEMENT_NAMES` of the source. -/
def INVALID_CUSTOM_ELEMENT_NAMES : List String :=
  [ "annotation-xml", "color-profile", "font-face", "font-face-src",
    "font-face-uri", "font-face-format", "font-face-name", "missing-glyph" ]

/-- Helper for `jsIndexOf`: index of the first occurrence of `c`,
counting from `i`, or `-1` when absent. -/
def jsIndexOfAux (c : Char) : List Char → Nat → Int
  | [], _ => -1
  | x :: xs, i => if x = c then (i : Int) else jsIndexOfAux c xs (i + 1)

/-- Embedding of JavaScript `String.prototype.indexOf` for a single
character: index of the first occurrence, `-1` when absent. -/
def jsIndexOf (s : String) (c : Char) : Int :=
  jsIndexOfAux c s.data 0

/-- Embedding of `#isCustomElementName`.  `none` stands for a non-string
argument (the typeof-string guard).  For the empty string
`charCodeAt(0)` is NaN in the source and both range comparisons are
false, hence the empty-data case returns false. -/
def isCustomElementName : Option String → Bool
  | none => false
  | some name =>
      match name.data with
      | [] => false
      | c :: _ =>
          ('a' ≤ c && c ≤ 'z')
          && jsIndexOf name '-' > 0
          && !(INVALID_CUSTOM_ELEMENT_NAMES.contains name)

/-- Implementation descriptor (a custom-element constructor).  Its
identity is all the engine observes, so it is modelled as a tag. -/
structure Ctor where
  id : Nat
deriving DecidableEq, Repr

/-- One entry of the definition registry: the registered constructor and
the optional extends option the registration carried. -/
structure RegEntry where
  ctor : Ctor
  extendsOpt : Option String
deriving DecidableEq, Repr

/-- The global custom-element definition registry (`customElements`),
keyed by name. -/
abbrev Registry := List (String × RegEntry)

/-- Lookup in the registry: `customElements.get(name)`. -/
def registryGet (reg : Registry) (name : String) : Option RegEntry :=
  (reg.find? (fun p => p.1 == name)).map (·.2)

/-- Embedding of `#isRegistered`: `!!name && !!customElements.get(name)`. -/
def isRegistered (reg : Registry) (name : String) : Bool :=
  !(name == "") && (registryGet reg name).isSome

/-- A configured filter: `none` when no filter is configured (the field
is null), otherwise the predicate. -/
abbrev Filter := Option (String → Bool)

/-- Embedding of `#shouldHandle`, the registry gate:
`!!name && isCustomElementName(name) && !isRegistered(name) && (!filter || !!filter(name))`. -/
def shouldHandle (f : Filter) (reg : Registry) (name : String) : Bool :=
  !(name == "")
  && isCustomElementName (some name)
  && !(isRegistered reg name)
  && (match f with
      | none => true
      | some fl => fl name)

/-- The first three conjuncts of `#shouldHandle`, which short-circuit
evaluation completes before the configured filter can be reached. -/
def gatePassesPreFilter (reg : Registry) (name : String) : Bool :=
  !(name == "") && isCustomElementName (some name) && !(isRegistered reg name)

/-- Names the configured filter is invoked with while `#shouldHandle`
evaluates on `name`: by short-circuit evaluation the filter function is
called exactly when the first three conjuncts hold and a filter is
configured. -/
def filterInvocations (f : Filter) (reg : Registry) (name : String) : List String :=
  if gatePassesPreFilter reg name && f.isSome then [name] else []

/-- Observable event of the synchronous phase: an invocation of the
configured filter with a name, or the start of a load-and-define
pipeline run (`#define` being invoked) for resolved names. -/
inductive Event where
  | filterCall (name : String)
  | defineStart (names : ElementNames)
deriving DecidableEq, Repr

/-- Trace of one gate-and-pipe visit of a single element, as performed
by `#scan` for each visited element: resolve the names, evaluate
`#shouldHandle` (invoking the filter as the short-circuit reaches it),
and invoke `#define` when the gate passes. -/
def visitEvents (f : Filter) (reg : Registry) (e : Element) : List Event :=
  let names := resolveNames e
  (filterInvocations f reg names.elementName).map Event.filterCall
    ++ (if shouldHandle f reg names.elementName then [Event.defineStart names] else [])

mutual

/-- Embedding of `#scan(elements, subtree)` on a list of elements: visit
each element; when `subtree` is set, additionally visit each direct
child and recurse into the children of the child with `subtree = true`. -/
def scanElems (f : Filter) (reg : Registry) : List Element → Bool → List Event
  | [], _ => []
  | .mk t i cs :: rest, subtree =>
      visitEvents f reg (.mk t i cs)
        ++ (if subtree then scanKids f reg cs else [])
        ++ scanElems f reg rest subtree

/-- Inner loop of `#scan` over `element.children` when `subtree` is set:
visit the child, then `#scan(child.children, true)`. -/
def scanKids (f : Filter) (reg : Registry) : List Element → List Event
  | [] => []
  | .mk t i cs :: rest =>
      visitEvents f reg (.mk t i cs)
        ++ scanElems f reg cs true
        ++ scanKids f reg rest

end

/-- Embedding of the `#scan(target, subtree)` entry call made by
`observe`: a single element is not iterable, so the source wraps it in a
one-element list. -/
def scan (f : Filter) (reg : Registry) (target : Element) (subtree : Bool) : List Event :=
  scanElems f reg [target] subtree

mutual

/-- Document-order (depth-first, pre-order) traversal of an element. -/
def preorder (e : Element) : List Element :=
  match e with
  | .mk t i cs => .mk t i cs :: preorderF cs

/-- Document-order traversal of a forest of elements. -/
def preorderF : List Element → List Element
  | [] => []
  | e :: rest => preorder e ++ preorderF rest

end

/-- The `observe` options object (`CustomElementsObserveInit`): each
field may be left undefined. -/
structure ObserveInit where
  scan : Option Bool
  subtree : Option Bool

/-- Fully resolved observe options. -/
structure ObserveOpts where
  scan : Bool
  subtree : Bool

/-- Embedding of `#resolveObserveOptions`: a falsy options argument
yields the defaults; otherwise each defined field is taken (booleanized)
and each undefined field falls back to its default. -/
def resolveObserveOptions (options : Option ObserveInit) (defaults : ObserveOpts) : ObserveOpts :=
  match options with
  | none => defaults
  | some o =>
      { scan := o.scan.getD defaults.scan, subtree := o.subtree.getD defaults.subtree }

/-- Trace of the synchronous scan phase of `observe(target, options)`:
options are resolved against the defaults `{ scan: true, subtree: true }`
and `#scan(target, subtree)` runs exactly when `scan` resolved to true.
(The mutation subscription itself produces no synchronous events.) -/
def observeScanEvents (f : Filter) (reg : Registry) (target : Element)
    (options : Option ObserveInit) : List Event :=
  let opts := resolveObserveOptions options { scan := true, subtree := true }
  if opts.scan then scan f reg target opts.subtree else []

/-- Names the filter was invoked with, extracted from a trace. -/
def filterCallNames (events : List Event) : List String :=
  events.filterMap (fun ev => match ev with
    | .filterCall n => some n
    | .defineStart _ => none)

/-- Resolved names of the pipeline runs triggered in a trace. -/
def defineStarts (events : List Event) : List ElementNames :=
  events.filterMap (fun ev => match ev with
    | .filterCall _ => none
    | .defineStart ns => some ns)

/-- Embedding of `#onElementAdded`: resolve the names, return early when
`#shouldHandle` fails (the filter invocation of its evaluation still
happens), otherwise run `#define`. -/
def onElementAdded (f : Filter) (reg : Registry) (e : Element) : List Event :=
  let names := resolveNames e
  (filterInvocations f reg names.elementName).map Event.filterCall
    ++ (if shouldHandle f reg names.elementName = false then []
        else [Event.defineStart names])

/-- Embedding of `#onIsAttributeChanged`, whose body coincides with
`#onElementAdded`. -/
def onIsAttributeChanged (f : Filter) (reg : Registry) (e : Element) : List Event :=
  let names := resolveNames e
  (filterInvocations f reg names.elementName).map Event.filterCall
    ++ (if shouldHandle f reg names.elementName = false then []
        else [Event.defineStart names])

/-- A DOM node as seen in `record.addedNodes`: an element node, or a
node of any other type (text, comment, ...), distinguished by the
`node.nodeType === Node.ELEMENT_NODE` check of the source. -/
inductive DomNode where
  | elem (e : Element)
  | other

/-- A delivered mutation record: the observer registers for attribute
changes (with filter `is`) and child-list changes only, so a record is
either an attributes record carrying its target element or a child-list
record carrying its added nodes. -/
inductive MutationRecord where
  | attributes (target : Element)
  | childList (addedNodes : List DomNode)

/-- Inner loop of the mutation callback over `record.addedNodes`:
element nodes are handed to `onElementAdded`, other nodes are skipped. -/
def processAddedNodes (f : Filter) (reg : Registry) : List DomNode → List Event
  | [] => []
  | .elem e :: rest => onElementAdded f reg e ++ processAddedNodes f reg rest
  | .other :: rest => processAddedNodes f reg rest

/-- Embedding of `mutationCallback`: records are processed in delivery
order; an attributes record is handed to `onIsAttributeChange` for its
target, any other record (necessarily childList) has its added nodes
expanded. -/
def mutationCallback (f : Filter) (reg : Registry) : List MutationRecord → List Event
  | [] => []
  | .attributes t :: rest =>
      onIsAttributeChanged f reg t ++ mutationCallback f reg rest
  | .childList ns :: rest =>
      processAddedNodes f reg ns ++ mutationCallback f reg rest

/-- A parsed URL value (`URL` instances are carried opaquely; only their
identity reaches the loader and the error messages). -/
structure URLVal where
  href : String
deriving DecidableEq, Repr

/-- Value returned by a configured urlResolver, as the source inspects
it: a string, a URL object, undefined, or any other non-URL value. -/
inductive UrlResult where
  | str (s : String)
  | url (u : URLVal)
  | undefinedVal
  | other
deriving DecidableEq, Repr

/-- Failure value of a rejected loader promise. -/
structure LoaderFailure where
  msg : String
deriving DecidableEq, Repr

/-- A loader: given a URL, either resolves with a constructor, resolves
with an explicit null (`none`), or rejects. -/
abbrev Loader := URLVal → Except LoaderFailure (Option Ctor)

/-- A urlResolver after constructor-option normalization. -/
abbrev UrlResolver := String → UrlResult

/-- Errors thrown inside `#load`, carrying exactly the data its message
strings interpolate: the SyntaxError carries the unparseable URL string
and the element name; the TypeError for a non-URL resolver result
carries the element name only; the loading error carries the element
name, the URL and the cause. -/
inductive LoadErr where
  | syntaxErr (url : String) (name : String)
  | typeMismatch (name : String)
  | loadingErr (name : String) (url : URLVal) (cause : LoaderFailure)
deriving DecidableEq, Repr

/-- The element name an error of `#load` is tagged with. -/
def LoadErr.nameOf : LoadErr → String
  | .syntaxErr _ n => n
  | .typeMismatch n => n
  | .loadingErr n _ _ => n

/-- The URL an error of `#load` carries, when it carries one. -/
def LoadErr.urlOf : LoadErr → Option String
  | .syntaxErr u _ => some u
  | .typeMismatch _ => none
  | .loadingErr _ u _ => some u.href

/-- Invocation of the loader by `#load`, wrapping a rejection into the
loading error tagged with name and URL. -/
def runLoader (ld : Loader) (elementName : String) (u : URLVal) :
    Except LoadErr (Option Ctor) :=
  match ld u with
  | .ok c => .ok c
  | .error e => .error (.loadingErr elementName u e)

/-- Embedding of `#load`.  `parseURL` models `new URL(s, window.location)`:
`none` when the constructor throws.  A string result of the resolver is
parsed (SyntaxError on failure); after that step any value that is not a
URL instance raises the TypeError; finally the loader runs with its
rejection wrapped. -/
def load (parseURL : String → Option URLVal) (res : UrlResolver) (ld : Loader)
    (elementName : String) : Except LoadErr (Option Ctor) :=
  match res elementName with
  | .str s =>
      match parseURL s with
      | none => .error (.syntaxErr s elementName)
      | some u => runLoader ld elementName u
  | .url u => runLoader ld elementName u
  | .undefinedVal => .error (.typeMismatch elementName)
  | .other => .error (.typeMismatch elementName)

/-- Outcome of one pipeline run of `#define` for a name: the skip notice
(`console.warn`, carrying the element name) when the constructor is
explicitly null, a registration under a name with constructor and
optional extends option, or the asynchronously surfaced wrapping error
of the catch handler, tagged with the element name and its cause. -/
inductive DefineOutcome where
  | warned (name : String)
  | defined (name : String) (ctor : Ctor) (extendsOpt : Option String)
  | errored (name : String) (cause : LoadErr)
deriving DecidableEq, Repr

/-- Embedding of the then-handler of `#define`: the extends option is
set to the tag name exactly when `names.isAttr` is a string; a null
constructor produces the warn notice, otherwise
`customElements.define(elementName, ctor, options)` runs. -/
def definePost (names : ElementNames) (ctorOpt : Option Ctor) : DefineOutcome :=
  let ext : Option String := if names.isAttr.isSome then some names.tagName else none
  match ctorOpt with
  | none => .warned names.elementName
  | some c => .defined names.elementName c ext

/-- Embedding of `#define` end to end: run `#load`, feed its resolution
into the then-handler, and wrap any rejection into the error of the
catch handler, tagged with the element name. -/
def definePipeline (parseURL : String → Option URLVal) (res : UrlResolver) (ld : Loader)
    (names : ElementNames) : DefineOutcome :=
  match load parseURL res ld names.elementName with
  | .ok ctorOpt => definePost names ctorOpt
  | .error e => .errored names.elementName e

/-- Effect of a pipeline outcome on the registry: only a registration
outcome calls the define of the registry. -/
def applyOutcome (reg : Registry) : DefineOutcome → Registry
  | .defined n c ext => (n, ⟨c, ext⟩) :: reg
  | .warned _ => reg
  | .errored _ _ => reg

/-- The filter constructor option as provided by the caller: absent
(null or undefined), a function, an array of names, or a string (the
invalid shape the unit tests exercise). -/
inductive FilterOpt where
  | absent
  | fn (f : String → Bool)
  | arr (names : List String)
  | str (s : String)

/-- JavaScript truthiness of a filter option value: functions and arrays
(even empty ones) are truthy, null and undefined are falsy, a string is
truthy when non-empty. -/
def FilterOpt.truthy : FilterOpt → Bool
  | .absent => false
  | .fn _ => true
  | .arr _ => true
  | .str s => !(s == "")

/-- True when the option is a function value. -/
def FilterOpt.isFn : FilterOpt → Bool
  | .fn _ => true
  | _ => false

/-- True when the option is an array value. -/
def FilterOpt.isArr : FilterOpt → Bool
  | .arr _ => true
  | _ => false

/-- The urlResolver constructor option as provided: absent, a function,
a Map from names to URL-or-string values, or a string (invalid). -/
inductive ResolverOpt where
  | absent
  | fn (f : UrlResolver)
  | mapv (entries : List (String × UrlResult))
  | str (s : String)

/-- JavaScript truthiness of a urlResolver option value. -/
def ResolverOpt.truthy : ResolverOpt → Bool
  | .absent => false
  | .fn _ => true
  | .mapv _ => true
  | .str s => !(s == "")

/-- True when the option is a function value. -/
def ResolverOpt.isFn : ResolverOpt → Bool
  | .fn _ => true
  | _ => false

/-- True when the option is a Map value. -/
def ResolverOpt.isMap : ResolverOpt → Bool
  | .mapv _ => true
  | _ => false

/-- The loader constructor option as provided: absent, a function, or a
string (invalid). -/
inductive LoaderOpt where
  | absent
  | fn (f : Loader)
  | str (s : String)

/-- JavaScript truthiness of a loader option value. -/
def LoaderOpt.truthy : LoaderOpt → Bool
  | .absent => false
  | .fn _ => true
  | .str s => !(s == "")

/-- True when the option is a function value. -/
def LoaderOpt.isFn : LoaderOpt → Bool
  | .fn _ => true
  | _ => false

/-- The constructor options object (`CustomElementsLazyLoaderInit`). -/
structure OptionsInit where
  filter : FilterOpt
  urlResolver : ResolverOpt
  loader : LoaderOpt

/-- Normalized configuration held by one instance. -/
structure Config where
  filter : Filter
  urlResolver : UrlResolver
  loader : Loader

/-- Map lookup as the converted urlResolver performs it:
`Map.prototype.get` returns the stored value or undefined. -/
def mapGet (entries : List (String × UrlResult)) (name : String) : UrlResult :=
  ((entries.find? (fun p => p.1 == name)).map (·.2)).getD .undefinedVal

/-- Normalization of the filter option, following the branch order of
`#resolveConstructorOptions`: a falsy value falls back to the default, a
function is taken as is, an array becomes the membership predicate
`name => options.filter.includes(name)`, anything else throws the
TypeError. -/
def resolveFilterOpt (fo : FilterOpt) (dflt : Filter) : Except String Filter :=
  if fo.truthy = false then .ok dflt
  else match fo with
    | .fn f => .ok (some f)
    | .arr ns => .ok (some (fun name => ns.contains name))
    | _ => .error "Expecting provided filter to be type of function or string[]."

/-- Normalization of the urlResolver option: falsy falls back to the
default, a function is taken as is, a Map becomes the lookup function
`name => options.urlResolver.get(name)`, anything else throws. -/
def resolveResolverOpt (ro : ResolverOpt) (dflt : UrlResolver) : Except String UrlResolver :=
  if ro.truthy = false then .ok dflt
  else match ro with
    | .fn f => .ok f
    | .mapv entries => .ok (fun name => mapGet entries name)
    | _ => .error "Expecting provided urlResolver to be type of function."

/-- Normalization of the loader option: falsy falls back to the default,
a function is taken as is, anything else throws. -/
def resolveLoaderOpt (lo : LoaderOpt) (dflt : Loader) : Except String Loader :=
  if lo.truthy = false then .ok dflt
  else match lo with
    | .fn f => .ok f
    | _ => .error "Expecting provided loader to be type of function."

/-- Embedding of `#resolveConstructorOptions`: a falsy options argument
yields a copy of the defaults; otherwise the three fields are normalized
in source order, the first invalid shape raising the TypeError (modelled
as the error of the Except monad, thrown synchronously before any
observation starts). -/
def resolveConstructorOptions (options : Option OptionsInit) (defaults : Config) :
    Except String Config :=
  match options with
  | none => .ok { filter := defaults.filter, urlResolver := defaults.urlResolver,
                  loader := defaults.loader }
  | some o =>
      match resolveFilterOpt o.filter defaults.filter with
      | .error e => .error e
      | .ok filter =>
          match resolveResolverOpt o.urlResolver defaults.urlResolver with
          | .error e => .error e
          | .ok urlResolver =>
              match resolveLoaderOpt o.loader defaults.loader with
              | .error e => .error e
              | .ok loader =>
                  .ok { filter := filter, urlResolver := urlResolver, loader := loader }

/-- Name eligibility phrased exactly as the specification words it, for
comparison with the source predicate `isCustomElementName`: first
character a lower-case ASCII letter, a hyphen at some index at least 1,
and not a member of the fixed deny-list. -/
def specEligibleName (s : String) : Bool :=
  (match s.data with
   | [] => false
   | c :: _ => 'a' ≤ c && c ≤ 'z')
  && (s.data.drop 1).contains '-'
  && !(INVALID_CUSTOM_ELEMENT_NAMES.contains s)

/-- Example filter accepting every name. -/
def exFilterTrue : Filter := some (fun _ => true)

/-- Example empty registry. -/
def exRegEmpty : Registry := []

/-- Example registry with the name x-y already defined. -/
def exRegXY : Registry := [("x-y", ⟨⟨0⟩, none⟩)]

/-- Example element: a plain div, no role attribute, no children. -/
def exDiv : Element := .mk "DIV" none []

/-- Example element: tag x-y with an empty-string is-attribute. -/
def exEmptyIs : Element := .mk "x-y" (some "") []

/-- Example URL parser that accepts every string. -/
def exParse : String → Option URLVal := fun s => some ⟨s⟩

/-- Example URL parser that rejects every string. -/
def exParseFail : String → Option URLVal := fun _ => none

/-- Example resolver returning the fixed URL string u. -/
def exResStr : UrlResolver := fun _ => .str "u"

/-- Example resolver returning undefined for every name. -/
def exResUndef : UrlResolver := fun _ => .undefinedVal

/-- Example resolver returning a URL object for every name. -/
def exResUrl : UrlResolver := fun _ => .url ⟨"u"⟩

/-- Example loader resolving with an explicit null constructor. -/
def exLoaderNull : Loader := fun _ => .ok none

/-- Example loader rejecting every load. -/
def exLoaderFail : Loader := fun _ => .error ⟨"boom"⟩

/-- Example resolved names of an autonomous element called x-y. -/
def exNamesXY : ElementNames := ⟨"x-y", "x-y", none⟩

/-- Example normalized configuration used as constructor defaults. -/
def exDefaults : Config :=
  { filter := none, urlResolver := fun _ => .undefinedVal, loader := fun _ => .ok none }

/-- Example constructor options whose filter is the empty string, a
falsy value that is neither a function nor an array. -/
def exOptsFalsyFilter : OptionsInit := ⟨.str "", .absent, .absent⟩

/-- Example mutation record batch: one childList record adding a text
node and one already-registered element. -/
def exRecords : List MutationRecord :=
  [ .childList [.other, .elem (.mk "x-y" none [])] ]

/-- jsIndexOfAux yields -1 exactly when the character is absent. -/
theorem jsIndexOfAux_eq_neg_one_iff (c : Char) :
    ∀ (xs : List Char) (i : Nat), jsIndexOfAux c xs i = -1 ↔ c ∉ xs := by
  intro xs
  induction xs with
  | nil => intro i; simp [jsIndexOfAux]
  | cons x xs ih =>
      intro i
      by_cases hx : x = c
      · subst hx
        have hne : ¬((i : Int) = -1) := by omega
        simp [jsIndexOfAux, hne]
      · have hmem : c ∈ x :: xs ↔ c ∈ xs := by
          constructor
          · intro hIn
            rcases List.mem_cons.mp hIn with h1 | h1
            · exact absurd h1.symm hx
            · exact h1
          · intro hIn; exact List.mem_cons_of_mem _ hIn
        rw [jsIndexOfAux, if_neg hx, ih (i + 1), hmem]

/-- When jsIndexOfAux does not yield -1, it yields at least the start
index. -/
theorem jsIndexOfAux_lower_bound (c : Char) :
    ∀ (xs : List Char) (i : Nat),
      jsIndexOfAux c xs i = -1 ∨ (i : Int) ≤ jsIndexOfAux c xs i := by
  intro xs
  induction xs with
  | nil => intro i; left; rfl
  | cons x xs ih =>
      intro i
      by_cases hx : x = c
      · right; rw [jsIndexOfAux, if_pos hx]
      · rw [jsIndexOfAux, if_neg hx]
        rcases ih (i + 1) with h | h
        · left; exact h
        · right; omega

/-- Starting from index 1, jsIndexOfAux is positive exactly when the
character occurs. -/
theorem jsIndexOfAux_one_pos_iff (c : Char) (xs : List Char) :
    (0 < jsIndexOfAux c xs 1) ↔ c ∈ xs := by
  constructor
  · intro h
    by_contra hmem
    rw [← jsIndexOfAux_eq_neg_one_iff c xs 1] at hmem
    omega
  · intro hmem
    rcases jsIndexOfAux_lower_bound c xs 1 with h | h
    · rw [jsIndexOfAux_eq_neg_one_iff] at h; exact absurd hmem h
    · omega

/-- The source validator agrees with the specification wording of name
eligibility on every string. -/
theorem isCustomElementName_eq_spec (s : String) :
    isCustomElementName (some s) = specEligibleName s := by
  unfold isCustomElementName specEligibleName
  cases h : s.data with
  | nil => simp [h]
  | cons c rest =>
      simp only [h, List.drop_succ_cons, List.drop_zero]
      by_cases hc : (decide ('a' ≤ c) && decide (c ≤ 'z')) = true
      · have hcd : ¬(c = '-') := by
          intro hEq
          rw [Bool.and_eq_true, decide_eq_true_eq, decide_eq_true_eq] at hc
          subst hEq
          exact absurd hc.1 (by decide)
        have hidx : jsIndexOf s '-' = jsIndexOfAux '-' rest 1 := by
          unfold jsIndexOf
          rw [h, jsIndexOfAux, if_neg hcd]
        rw [hc, hidx]
        have hcont : (decide (0 < jsIndexOfAux '-' rest 1)) = rest.contains '-' := by
          rw [Bool.eq_iff_iff, decide_eq_true_eq, List.elem_iff]
          exact jsIndexOfAux_one_pos_iff '-' rest
        simp only [gt_iff_lt, hcont]
      · rw [Bool.not_eq_true] at hc
        rw [hc]
        simp

/-- C5: the name validator is a pure total predicate over strings; it
rejects non-strings, the empty string, strings whose first character is
not a lower-case ASCII letter, strings without a hyphen at index at
least 1, and the members of the fixed deny-list, and accepts every
other string (it agrees with the spec-worded eligibility predicate on
all strings); in particular x-y is accepted while 1-invalid and
noHyphen are rejected. -/
theorem c5_name_validator :
    isCustomElementName none = false
    ∧ isCustomElementName (some "") = false
    ∧ (∀ s : String, isCustomElementName (some s) = specEligibleName s)
    ∧ (INVALID_CUSTOM_ELEMENT_NAMES.all
        (fun n => isCustomElementName (some n) == false)) = true
    ∧ isCustomElementName (some "x-y") = true
    ∧ isCustomElementName (some "1-invalid") = false
    ∧ isCustomElementName (some "noHyphen") = false :=
  ⟨rfl, by decide, isCustomElementName_eq_spec, by decide, by decide, by decide, by decide⟩

/-- C3: name resolution is total and side-effect free; the returned tag
name is the lower-cased tag identity; without a role attribute the
element name equals the tag name and the isAttr field is absent; with a
role attribute the element name is the lower-cased attribute value,
regardless of the tag case, and the isAttr field holds that value. -/
theorem c3_resolve_names :
    (∀ (tag : String) (cs : List Element),
        resolveNames (Element.mk tag none cs)
          = { elementName := jsToLower tag, tagName := jsToLower tag, isAttr := none })
    ∧ (∀ (tag v : String) (cs : List Element),
        resolveNames (Element.mk tag (some v) cs)
          = { elementName := jsToLower v, tagName := jsToLower tag,
              isAttr := some (jsToLower v) }) :=
  ⟨fun _ _ => rfl, fun _ _ _ => rfl⟩

/-- C4: whenever the pipeline reaches registration with a non-null
implementation, the implementation is registered under the resolved
element name, and the extends option equals the tag name exactly when
the role attribute was present in the resolved names; with no role
attribute, the name is defined with no extends option. -/
theorem c4_define_registration :
    (∀ (names : ElementNames) (c : Ctor),
        definePost names (some c)
          = DefineOutcome.defined names.elementName c
              (if names.isAttr.isSome then some names.tagName else none))
    ∧ (∀ (en tn : String) (c : Ctor),
        definePost ⟨en, tn, none⟩ (some c) = DefineOutcome.defined en c none)
    ∧ (∀ (en tn ia : String) (c : Ctor),
        definePost ⟨en, tn, some ia⟩ (some c)
          = DefineOutcome.defined en c (some tn)) :=
  ⟨fun _ _ => rfl, fun _ _ _ => rfl, fun _ _ _ _ => rfl⟩

/-- The added-element handler performs exactly the visit step of the scanner
on its element. -/
theorem onElementAdded_eq_visitEvents (f : Filter) (reg : Registry) (e : Element) :
    onElementAdded f reg e = visitEvents f reg e := by
  unfold onElementAdded visitEvents
  by_cases h : shouldHandle f reg (resolveNames e).elementName = true
  · simp [h]
  · rw [Bool.not_eq_true] at h; simp [h]

/-- The attribute-change handler performs exactly the visit step of the
scanner on its element. -/
theorem onIsAttributeChanged_eq_visitEvents (f : Filter) (reg : Registry) (e : Element) :
    onIsAttributeChanged f reg e = visitEvents f reg e := by
  unfold onIsAttributeChanged visitEvents
  by_cases h : shouldHandle f reg (resolveNames e).elementName = true
  · simp [h]
  · rw [Bool.not_eq_true] at h; simp [h]

/-- A pipeline run in a visit trace belongs to the visited element and
only happens when the gate passed. -/
theorem defineStart_mem_visitEvents (f : Filter) (reg : Registry) (e : Element)
    (ns : ElementNames) (h : Event.defineStart ns ∈ visitEvents f reg e) :
    ns = resolveNames e ∧ shouldHandle f reg ns.elementName = true := by
  unfold visitEvents at h
  rcases List.mem_append.mp h with h1 | h1
  · exfalso
    rcases List.mem_map.mp h1 with ⟨n, _, hEq⟩
    exact Event.noConfusion hEq
  · split at h1
    case isTrue hs =>
      have hEq : ns = resolveNames e := by
        injection List.mem_singleton.mp h1
      subst hEq
      exact ⟨rfl, hs⟩
    case isFalse => cases h1

mutual

/-- A pipeline run in a scan trace only happens for a name the gate
passed. -/
theorem defineStart_mem_scanElems (f : Filter) (reg : Registry) :
    ∀ (L : List Element) (st : Bool) (ns : ElementNames),
      Event.defineStart ns ∈ scanElems f reg L st →
      shouldHandle f reg ns.elementName = true
  | [], _, ns => by
      intro h
      rw [scanElems] at h
      cases h
  | .mk t i cs :: rest, st, ns => by
      intro h
      rw [scanElems, List.mem_append, List.mem_append] at h
      rcases h with (h | h) | h
      · exact (defineStart_mem_visitEvents f reg _ ns h).2
      · cases st with
        | false => simp at h
        | true =>
            simp only [if_true] at h
            exact defineStart_mem_scanKids f reg cs ns h
      · exact defineStart_mem_scanElems f reg rest st ns h

/-- A pipeline run in the inner child loop of the scanner only happens
for a name the gate passed. -/
theorem defineStart_mem_scanKids (f : Filter) (reg : Registry) :
    ∀ (L : List Element) (ns : ElementNames),
      Event.defineStart ns ∈ scanKids f reg L →
      shouldHandle f reg ns.elementName = true
  | [], ns => by
      intro h
      rw [scanKids] at h
      cases h
  | .mk t i cs :: rest, ns => by
      intro h
      rw [scanKids, List.mem_append, List.mem_append] at h
      rcases h with (h | h) | h
      · exact (defineStart_mem_visitEvents f reg _ ns h).2
      · exact defineStart_mem_scanElems f reg cs true ns h
      · exact defineStart_mem_scanKids f reg rest ns h

end

/-- A pipeline run triggered from the added-nodes loop only happens for
a name the gate passed. -/
theorem defineStart_mem_processAdded (f : Filter) (reg : Registry) :
    ∀ (nodes : List DomNode) (ns : ElementNames),
      Event.defineStart ns ∈ processAddedNodes f reg nodes →
      shouldHandle f reg ns.elementName = true := by
  intro nodes
  induction nodes with
  | nil => intro ns h; cases h
  | cons n rest ih =>
      intro ns h
      cases n with
      | elem e =>
          rw [processAddedNodes, List.mem_append] at h
          rcases h with h | h
          · rw [onElementAdded_eq_visitEvents] at h
            exact (defineStart_mem_visitEvents f reg e ns h).2
          · exact ih ns h
      | other =>
          rw [processAddedNodes] at h
          exact ih ns h

/-- A pipeline run triggered from a mutation batch only happens for a
name the gate passed. -/
theorem defineStart_mem_mutationCallback (f : Filter) (reg : Registry) :
    ∀ (records : List MutationRecord) (ns : ElementNames),
      Event.defineStart ns ∈ mutationCallback f reg records →
      shouldHandle f reg ns.elementName = true := by
  intro records
  induction records with
  | nil => intro ns h; cases h
  | cons r rest ih =>
      intro ns h
      cases r with
      | attributes t =>
          rw [mutationCallback, List.mem_append] at h
          rcases h with h | h
          · rw [onIsAttributeChanged_eq_visitEvents] at h
            exact (defineStart_mem_visitEvents f reg t ns h).2
          · exact ih ns h
      | childList nodes =>
          rw [mutationCallback, List.mem_append] at h
          rcases h with h | h
          · exact defineStart_mem_processAdded f reg nodes ns h
          · exact ih ns h

/-- C1: the gate returns true exactly when the name is a truthy string,
a valid custom-element name, not already present in the registry, and
either no filter is configured or the configured filter accepts it;
consequently, for a registered name the gate returns false and no
pipeline run is triggered for that name by any scan or any batch of
mutation records. -/
theorem c1_registry_gate :
    ∀ (f : Filter) (reg : Registry) (name : String),
      (shouldHandle f reg name = true
        ↔ (name ≠ "" ∧ isCustomElementName (some name) = true
            ∧ isRegistered reg name = false
            ∧ (f = none ∨ ∃ fl, f = some fl ∧ fl name = true)))
      ∧ (isRegistered reg name = true →
           shouldHandle f reg name = false
           ∧ (∀ (L : List Element) (st : Bool) (ns : ElementNames),
                Event.defineStart ns ∈ scanElems f reg L st → ns.elementName ≠ name)
           ∧ (∀ (records : List MutationRecord) (ns : ElementNames),
                Event.defineStart ns ∈ mutationCallback f reg records →
                  ns.elementName ≠ name)) := by
  intro f reg name
  constructor
  · constructor
    · intro hsh
      unfold shouldHandle at hsh
      rw [Bool.and_eq_true, Bool.and_eq_true, Bool.and_eq_true] at hsh
      obtain ⟨⟨⟨h1, h2⟩, h3⟩, h4⟩ := hsh
      refine ⟨?_, h2, by rwa [Bool.not_eq_true'] at h3, ?_⟩
      · intro hEq
        subst hEq
        simp at h1
      · cases f with
        | none => exact Or.inl rfl
        | some fl => exact Or.inr ⟨fl, rfl, h4⟩
    · rintro ⟨h1, h2, h3, h4⟩
      unfold shouldHandle
      rw [Bool.and_eq_true, Bool.and_eq_true, Bool.and_eq_true]
      refine ⟨⟨⟨by simp [h1], h2⟩, by rwa [Bool.not_eq_true']⟩, ?_⟩
      cases f with
      | none => rfl
      | some fl =>
          rcases h4 with h4 | ⟨fl2, hfl, h4⟩
          · exact Option.noConfusion h4
          · have hEq : fl = fl2 := by injection hfl
            subst hEq
            exact h4
  · intro hreg
    have hfalse : shouldHandle f reg name = false := by
      unfold shouldHandle
      rw [hreg]
      simp
    refine ⟨hfalse, ?_, ?_⟩
    · intro L st ns hmem hEq
      have := defineStart_mem_scanElems f reg L st ns hmem
      rw [hEq, hfalse] at this
      cases this
    · intro records ns hmem hEq
      have := defineStart_mem_mutationCallback f reg records ns hmem
      rw [hEq, hfalse] at this
      cases this

/-- Witness for C1 at a concrete registered name: x-y is registered, so
the gate rejects it and a mutation batch re-mentioning it triggers no
pipeline run. -/
theorem c1_registry_gate_witness :
    isRegistered exRegXY "x-y" = true
    ∧ shouldHandle none exRegXY "x-y" = false
    ∧ Event.defineStart exNamesXY ∉ mutationCallback none exRegXY exRecords :=
  ⟨by decide,
   ((c1_registry_gate none exRegXY "x-y").2 (by decide)).1,
   fun hmem =>
     ((c1_registry_gate none exRegXY "x-y").2 (by decide)).2.2 exRecords exNamesXY hmem rfl⟩

/-- C10: an element whose role attribute is present with the empty
string resolves to the empty element name, the gate rejects the empty
name, and no filter invocation or pipeline run occurs for the element,
whatever its tag name — even a tag name that is itself a valid,
unregistered custom-element name. -/
theorem c10_empty_role_attribute :
    (∀ (tag : String) (cs : List Element) (f : Filter) (reg : Registry),
        (resolveNames (Element.mk tag (some "") cs)).elementName = ""
        ∧ shouldHandle f reg "" = false
        ∧ visitEvents f reg (Element.mk tag (some "") cs) = []
        ∧ onElementAdded f reg (Element.mk tag (some "") cs) = []
        ∧ onIsAttributeChanged f reg (Element.mk tag (some "") cs) = [])
    ∧ isCustomElementName (some "x-y") = true
    ∧ isRegistered exRegEmpty "x-y" = false
    ∧ visitEvents exFilterTrue exRegEmpty exEmptyIs = [] := by
  have hname : ∀ (tag : String) (cs : List Element),
      (resolveNames (Element.mk tag (some "") cs)).elementName = "" := by
    intro tag cs
    rfl
  have hgate : ∀ (f : Filter) (reg : Registry), shouldHandle f reg "" = false := by
    intro f reg
    unfold shouldHandle
    simp
  have hvisit : ∀ (tag : String) (cs : List Element) (f : Filter) (reg : Registry),
      visitEvents f reg (Element.mk tag (some "") cs) = [] := by
    intro tag cs f reg
    simp only [visitEvents, hname, hgate]
    simp [filterInvocations, gatePassesPreFilter]
  refine ⟨fun tag cs f reg => ⟨hname tag cs, hgate f reg, hvisit tag cs f reg, ?_, ?_⟩,
          by decide, by decide, hvisit "x-y" [] exFilterTrue exRegEmpty⟩
  · rw [onElementAdded_eq_visitEvents, hvisit]
  · rw [onIsAttributeChanged_eq_visitEvents, hvisit]

mutual

/-- With subtree scanning enabled, the trace of the scanner is the
concatenation of the visit traces of the forest in document order. -/
theorem scanElems_true_eq_preorder (f : Filter) (reg : Registry) :
    ∀ (L : List Element),
      scanElems f reg L true = (preorderF L).flatMap (visitEvents f reg)
  | [] => by
      rw [scanElems, preorderF]
      rfl
  | .mk t i cs :: rest => by
      have h1 := scanKids_eq_preorder f reg cs
      have h2 := scanElems_true_eq_preorder f reg rest
      rw [scanElems, preorderF, preorder, if_pos rfl, h1, h2,
          List.flatMap_append, List.flatMap_cons, List.append_assoc]

/-- The inner child loop of the scanner traces the forest of children
in document order. -/
theorem scanKids_eq_preorder (f : Filter) (reg : Registry) :
    ∀ (L : List Element),
      scanKids f reg L = (preorderF L).flatMap (visitEvents f reg)
  | [] => by
      rw [scanKids, preorderF]
      rfl
  | .mk t i cs :: rest => by
      have h1 := scanElems_true_eq_preorder f reg cs
      have h2 := scanKids_eq_preorder f reg rest
      rw [scanKids, preorderF, preorder, h1, h2,
          List.flatMap_append, List.flatMap_cons, List.append_assoc]

end

/-- Scanning a single element without subtree is exactly one visit. -/
theorem scan_false_eq_visit (f : Filter) (reg : Registry) (e : Element) :
    scan f reg e false = visitEvents f reg e := by
  cases e with
  | mk t i cs =>
      rw [scan, scanElems, scanElems]
      simp

/-- Extracting filter-call names from a pure filter-call trace is the
identity. -/
theorem filterMap_extract_map_filterCall (l : List String) :
    List.filterMap
      (fun ev => match ev with
        | Event.filterCall n => some n
        | Event.defineStart _ => none)
      (l.map Event.filterCall) = l := by
  induction l with
  | nil => rfl
  | cons a l ih => simp [List.filterMap_cons, ih]

/-- The filter invocations of one visit are those of the gate
evaluation on the resolved name of the element. -/
theorem filterCallNames_visitEvents (f : Filter) (reg : Registry) (e : Element) :
    filterCallNames (visitEvents f reg e)
      = filterInvocations f reg (resolveNames e).elementName := by
  unfold visitEvents filterCallNames
  rw [List.filterMap_append, filterMap_extract_map_filterCall]
  by_cases h : shouldHandle f reg (resolveNames e).elementName = true <;>
    simp [h]

/-- Expanding per-element singleton gate results gives the map-filter
form over the element list. -/
theorem flatMap_gate_filter (L : List Element) (g : Element → String) (p : String → Bool) :
    (L.flatMap (fun e => if p (g e) = true then [g e] else []))
      = (L.map g).filter p := by
  induction L with
  | nil => rfl
  | cons e rest ih =>
      rw [List.flatMap_cons, List.map_cons, List.filter_cons, ih]
      by_cases h : p (g e) = true
      · simp [h]
      · rw [Bool.not_eq_true] at h
        simp [h]

/-- The filter invocations of a concatenation of visit traces are the
per-element gate invocations, in the same order. -/
theorem filterCallNames_flatMap_visit (f : Filter) (reg : Registry) (L : List Element) :
    filterCallNames (L.flatMap (visitEvents f reg))
      = L.flatMap (fun e => filterInvocations f reg (resolveNames e).elementName) := by
  induction L with
  | nil => rfl
  | cons e rest ih =>
      rw [List.flatMap_cons, List.flatMap_cons]
      have h1 := filterCallNames_visitEvents f reg e
      unfold filterCallNames at h1 ih ⊢
      rw [List.filterMap_append, h1, ih]

/-- C2 counterexample: observing a plain div with scan enabled and
subtree disabled yields zero filter invocations (its resolved name div
fails the validity check before the filter is reached), refuting that
the filter is invoked exactly once for the target. -/
theorem c2_counterexample :
    filterCallNames (observeScanEvents exFilterTrue exRegEmpty exDiv
        (some { scan := some true, subtree := some false })) = []
    ∧ (resolveNames exDiv).elementName = "div"
    ∧ Option.isSome exFilterTrue = true := by
  refine ⟨?_, by decide, by decide⟩
  have h1 : observeScanEvents exFilterTrue exRegEmpty exDiv
      (some { scan := some true, subtree := some false })
      = scan exFilterTrue exRegEmpty exDiv false := by
    simp [observeScanEvents, resolveObserveOptions]
  rw [h1, scan_false_eq_visit, filterCallNames_visitEvents]
  decide

/-- C2 (amended): with scan disabled an observe call produces an empty
synchronous trace (zero filter invocations); with scan enabled and
subtree disabled the filter is invoked exactly once, for the target,
provided the resolved name of the target passes the pre-filter gate (truthy,
valid, unregistered), and zero times otherwise; with subtree enabled
the filter is invoked once per element whose resolved name passes the
pre-filter gate, in document order, depth-first, the target first. -/
theorem c2_observe_scan_modes :
    ∀ (fl : String → Bool) (reg : Registry) (target : Element) (sub : Option Bool),
      observeScanEvents (some fl) reg target
          (some { scan := some false, subtree := sub }) = []
      ∧ filterCallNames (observeScanEvents (some fl) reg target
            (some { scan := some true, subtree := some false }))
          = (if gatePassesPreFilter reg (resolveNames target).elementName = true
             then [(resolveNames target).elementName] else [])
      ∧ filterCallNames (observeScanEvents (some fl) reg target
            (some { scan := some true, subtree := some true }))
          = ((preorder target).map (fun e => (resolveNames e).elementName)).filter
              (gatePassesPreFilter reg) := by
  intro fl reg target sub
  refine ⟨?_, ?_, ?_⟩
  · simp [observeScanEvents, resolveObserveOptions]
  · have h1 : observeScanEvents (some fl) reg target
        (some { scan := some true, subtree := some false })
        = scan (some fl) reg target false := by
      simp [observeScanEvents, resolveObserveOptions]
    rw [h1, scan_false_eq_visit, filterCallNames_visitEvents]
    unfold filterInvocations
    simp
  · have h1 : observeScanEvents (some fl) reg target
        (some { scan := some true, subtree := some true })
        = scan (some fl) reg target true := by
      simp [observeScanEvents, resolveObserveOptions]
    rw [h1, scan, scanElems_true_eq_preorder]
    have hF : preorderF [target] = preorder target := by
      rw [preorderF, preorderF, List.append_nil]
    rw [hF, filterCallNames_flatMap_visit,
        ← flatMap_gate_filter (preorder target)
          (fun e => (resolveNames e).elementName) (gatePassesPreFilter reg)]
    simp only [filterInvocations, Option.isSome_some, Bool.and_true]

/-- The added-nodes loop expands each element node into one handler
invocation and skips non-element nodes. -/
theorem processAddedNodes_eq_flatMap (f : Filter) (reg : Registry) (nodes : List DomNode) :
    processAddedNodes f reg nodes
      = nodes.flatMap (fun n => match n with
          | .elem e => onElementAdded f reg e
          | .other => []) := by
  induction nodes with
  | nil => rfl
  | cons n rest ih =>
      cases n with
      | elem e => rw [processAddedNodes, ih, List.flatMap_cons]
      | other =>
          rw [processAddedNodes, ih, List.flatMap_cons]
          simp

/-- C9: a delivered batch is processed in record order; each attribute
record contributes exactly the handling of its target, each added-node
record contributes exactly one handling per added element node and none
for non-element nodes; and each handling is exactly the visit step of the
scanner for that single element, with no recursion into descendants. -/
theorem c9_mutation_batches :
    ∀ (f : Filter) (reg : Registry),
      (∀ (records : List MutationRecord),
          mutationCallback f reg records
            = records.flatMap (fun r =>
                match r with
                | .attributes t => onIsAttributeChanged f reg t
                | .childList nodes =>
                    nodes.flatMap (fun n =>
                      match n with
                      | .elem e => onElementAdded f reg e
                      | .other => [])))
      ∧ (∀ e, onElementAdded f reg e = visitEvents f reg e)
      ∧ (∀ e, onIsAttributeChanged f reg e = visitEvents f reg e)
      ∧ (∀ e, onElementAdded f reg e = scan f reg e false) := by
  intro f reg
  refine ⟨?_, onElementAdded_eq_visitEvents f reg,
          onIsAttributeChanged_eq_visitEvents f reg, ?_⟩
  · intro records
    induction records with
    | nil => rfl
    | cons r rest ih =>
        cases r with
        | attributes t => rw [mutationCallback, ih, List.flatMap_cons]
        | childList nodes =>
            rw [mutationCallback, ih, List.flatMap_cons,
                processAddedNodes_eq_flatMap]
  · intro e
    rw [scan_false_eq_visit, onElementAdded_eq_visitEvents]

/-- An error produced by the loader invocation step is tagged with the
element name. -/
theorem runLoader_error_name (ld : Loader) (n : String) (u : URLVal) (err : LoadErr)
    (h : runLoader ld n u = Except.error err) : err.nameOf = n := by
  rcases hld : ld u with e | c
  · simp only [runLoader, hld, Except.error.injEq] at h
    subst h
    rfl
  · simp only [runLoader, hld] at h
    exact Except.noConfusion h

/-- C6 counterexample: a resolver yielding undefined (not URL-shaped)
makes the pipeline fail with the type-mismatch error, which carries the
offending name but no URL, refuting that every such error carries both
the name and the URL. -/
theorem c6_counterexample :
    load exParse exResUndef exLoaderNull "x-y"
      = Except.error (LoadErr.typeMismatch "x-y")
    ∧ (LoadErr.typeMismatch "x-y").urlOf = none
    ∧ (LoadErr.typeMismatch "x-y").nameOf = "x-y" :=
  ⟨rfl, rfl, rfl⟩

/-- C6 (amended): the urlResolver is invoked for the name; a string
result that cannot be parsed against the base location fails the
pipeline with the SyntaxError-kind error carrying the offending URL
string and the name; a result that is not URL-shaped fails with the
type-mismatch error carrying the offending name (and no URL); a loader
rejection is wrapped into an error carrying the name and the URL; every
error path yields an error tagged with the offending name — no failure
is silently swallowed. -/
theorem c6_load_error_surfacing :
    ∀ (pf : String → Option URLVal) (res : UrlResolver) (ld : Loader) (n : String),
      (∀ s, res n = UrlResult.str s → pf s = none →
          load pf res ld n = Except.error (LoadErr.syntaxErr s n))
      ∧ ((res n = UrlResult.undefinedVal ∨ res n = UrlResult.other) →
          load pf res ld n = Except.error (LoadErr.typeMismatch n))
      ∧ (∀ s u e, res n = UrlResult.str s → pf s = some u →
          ld u = Except.error e →
          load pf res ld n = Except.error (LoadErr.loadingErr n u e))
      ∧ (∀ u e, res n = UrlResult.url u → ld u = Except.error e →
          load pf res ld n = Except.error (LoadErr.loadingErr n u e))
      ∧ (∀ err, load pf res ld n = Except.error err → err.nameOf = n) := by
  intro pf res ld n
  refine ⟨?_, ?_, ?_, ?_, ?_⟩
  · intro s hs hp
    simp only [load, hs, hp]
  · intro h
    rcases h with h | h <;> simp only [load, h]
  · intro s u e hs hp hld
    simp only [load, hs, hp, runLoader, hld]
  · intro u e hu hld
    simp only [load, hu, runLoader, hld]
  · intro err herr
    cases hres : res n with
    | str s =>
        simp only [load, hres] at herr
        cases hp : pf s with
        | none =>
            simp only [hp, Except.error.injEq] at herr
            subst herr
            rfl
        | some u2 =>
            simp only [hp] at herr
            exact runLoader_error_name ld n u2 err herr
    | url u =>
        simp only [load, hres] at herr
        exact runLoader_error_name ld n u err herr
    | undefinedVal =>
        simp only [load, hres, Except.error.injEq] at herr
        subst herr
        rfl
    | other =>
        simp only [load, hres, Except.error.injEq] at herr
        subst herr
        rfl

/-- Witness for C6 at concrete inputs: an unparseable string result
produces the SyntaxError-kind error, and its tag is the element name. -/
theorem c6_load_error_surfacing_witness :
    exResStr "x-y" = UrlResult.str "u"
    ∧ exParseFail "u" = none
    ∧ load exParseFail exResStr exLoaderNull "x-y"
        = Except.error (LoadErr.syntaxErr "u" "x-y")
    ∧ (LoadErr.syntaxErr "u" "x-y").nameOf = "x-y" :=
  ⟨rfl, rfl,
   (c6_load_error_surfacing exParseFail exResStr exLoaderNull "x-y").1 "u" rfl rfl,
   (c6_load_error_surfacing exParseFail exResStr exLoaderNull "x-y").2.2.2.2
     (LoadErr.syntaxErr "u" "x-y")
     ((c6_load_error_surfacing exParseFail exResStr exLoaderNull "x-y").1 "u" rfl rfl)⟩

/-- C7: when the loader resolves to an explicit null descriptor, the
pipeline run completes as the warn notice for that element name: the
registry define is not invoked, the registry is unchanged, and no error
outcome is produced. -/
theorem c7_null_constructor_skip :
    ∀ (pf : String → Option URLVal) (res : UrlResolver) (ld : Loader)
      (names : ElementNames) (reg : Registry),
      load pf res ld names.elementName = Except.ok none →
        definePipeline pf res ld names = DefineOutcome.warned names.elementName
        ∧ applyOutcome reg (definePipeline pf res ld names) = reg
        ∧ (∀ n c ext, definePipeline pf res ld names ≠ DefineOutcome.defined n c ext)
        ∧ (∀ n err, definePipeline pf res ld names ≠ DefineOutcome.errored n err) := by
  intro pf res ld names reg h
  have hmain : definePipeline pf res ld names
      = DefineOutcome.warned names.elementName := by
    unfold definePipeline
    rw [h]
    rfl
  refine ⟨hmain, by rw [hmain]; rfl, ?_, ?_⟩
  · intro n c ext hcontra
    rw [hmain] at hcontra
    exact DefineOutcome.noConfusion hcontra
  · intro n err hcontra
    rw [hmain] at hcontra
    exact DefineOutcome.noConfusion hcontra

/-- Witness for C7 at concrete inputs: a loader resolving null yields
the warn outcome and leaves the registry untouched. -/
theorem c7_null_constructor_skip_witness :
    load exParse exResUrl exLoaderNull "x-y" = Except.ok none
    ∧ definePipeline exParse exResUrl exLoaderNull exNamesXY
        = DefineOutcome.warned "x-y"
    ∧ applyOutcome exRegEmpty (definePipeline exParse exResUrl exLoaderNull exNamesXY)
        = exRegEmpty :=
  ⟨rfl,
   (c7_null_constructor_skip exParse exResUrl exLoaderNull exNamesXY exRegEmpty rfl).1,
   (c7_null_constructor_skip exParse exResUrl exLoaderNull exNamesXY exRegEmpty rfl).2.1⟩

/-- The filter normalization succeeds exactly unless the value is
truthy and neither a function nor an array. -/
theorem resolveFilterOpt_isOk (fo : FilterOpt) (dflt : Filter) :
    (resolveFilterOpt fo dflt).isOk
      = !(fo.truthy && !fo.isFn && !fo.isArr) := by
  cases fo with
  | absent => rfl
  | fn f => rfl
  | arr ns => rfl
  | str s =>
      by_cases h : (s == "") = true
      · simp [resolveFilterOpt, FilterOpt.truthy, FilterOpt.isFn, FilterOpt.isArr, h,
              Except.isOk, Except.toBool]
      · rw [Bool.not_eq_true] at h
        simp [resolveFilterOpt, FilterOpt.truthy, FilterOpt.isFn, FilterOpt.isArr, h,
              Except.isOk, Except.toBool]

/-- The urlResolver normalization succeeds exactly unless the value is
truthy and neither a function nor a Map. -/
theorem resolveResolverOpt_isOk (ro : ResolverOpt) (dflt : UrlResolver) :
    (resolveResolverOpt ro dflt).isOk
      = !(ro.truthy && !ro.isFn && !ro.isMap) := by
  cases ro with
  | absent => rfl
  | fn f => rfl
  | mapv entries => rfl
  | str s =>
      by_cases h : (s == "") = true
      · simp [resolveResolverOpt, ResolverOpt.truthy, ResolverOpt.isFn,
              ResolverOpt.isMap, h, Except.isOk, Except.toBool]
      · rw [Bool.not_eq_true] at h
        simp [resolveResolverOpt, ResolverOpt.truthy, ResolverOpt.isFn,
              ResolverOpt.isMap, h, Except.isOk, Except.toBool]

/-- The loader normalization succeeds exactly unless the value is truthy
and not a function. -/
theorem resolveLoaderOpt_isOk (lo : LoaderOpt) (dflt : Loader) :
    (resolveLoaderOpt lo dflt).isOk = !(lo.truthy && !lo.isFn) := by
  cases lo with
  | absent => rfl
  | fn f => rfl
  | str s =>
      by_cases h : (s == "") = true
      · simp [resolveLoaderOpt, LoaderOpt.truthy, LoaderOpt.isFn, h,
              Except.isOk, Except.toBool]
      · rw [Bool.not_eq_true] at h
        simp [resolveLoaderOpt, LoaderOpt.truthy, LoaderOpt.isFn, h,
              Except.isOk, Except.toBool]

/-- C8 counterexample: options providing an empty-string filter — a
value that is neither a function nor a list — are accepted without any
error (the falsy value silently falls back to the default), refuting
that construction fails whenever the options contain a filter that is
neither a function nor a list. -/
theorem c8_counterexample :
    exOptsFalsyFilter.filter = FilterOpt.str ""
    ∧ (FilterOpt.str "").isFn = false
    ∧ (FilterOpt.str "").isArr = false
    ∧ (resolveConstructorOptions (some exOptsFalsyFilter) exDefaults).isOk = true :=
  ⟨rfl, rfl, rfl, rfl⟩

/-- C8 (amended): construction fails synchronously with the
type-mismatch error exactly when the options contain a truthy filter
that is neither a function nor an array, a truthy urlResolver that is
neither a function nor a Map, or a truthy loader that is not a function
(falsy fields fall back to the defaults); an array filter is converted
to the membership predicate over the listed names, and a Map
urlResolver to a lookup function that returns undefined for unknown
names. -/
theorem c8_constructor_options :
    (∀ (o : OptionsInit) (d : Config),
        (resolveConstructorOptions (some o) d).isOk
          = !((o.filter.truthy && !o.filter.isFn && !o.filter.isArr)
              || (o.urlResolver.truthy && !o.urlResolver.isFn && !o.urlResolver.isMap)
              || (o.loader.truthy && !o.loader.isFn)))
    ∧ (∀ (ns : List String) (dflt : Filter),
        resolveFilterOpt (FilterOpt.arr ns) dflt
          = Except.ok (some (fun name => ns.contains name)))
    ∧ (∀ (entries : List (String × UrlResult)) (dflt : UrlResolver),
        resolveResolverOpt (ResolverOpt.mapv entries) dflt
          = Except.ok (fun name => mapGet entries name))
    ∧ (∀ (entries : List (String × UrlResult)) (name : String),
        (entries.find? (fun p => p.1 == name)) = none →
          mapGet entries name = UrlResult.undefinedVal) := by
  refine ⟨?_, fun ns dflt => rfl, fun entries dflt => rfl, ?_⟩
  · intro o d
    rcases h1 : resolveFilterOpt o.filter d.filter with e | flt
    · have hf := resolveFilterOpt_isOk o.filter d.filter
      rw [h1] at hf
      have hinv : (o.filter.truthy && !o.filter.isFn && !o.filter.isArr) = true := by
        cases hb : (o.filter.truthy && !o.filter.isFn && !o.filter.isArr)
        · rw [hb] at hf
          simp [Except.isOk, Except.toBool] at hf
        · rfl
      simp [resolveConstructorOptions, h1, hinv, Except.isOk, Except.toBool]
    · have hf := resolveFilterOpt_isOk o.filter d.filter
      rw [h1] at hf
      have hok1 : (o.filter.truthy && !o.filter.isFn && !o.filter.isArr) = false := by
        cases hb : (o.filter.truthy && !o.filter.isFn && !o.filter.isArr)
        · rfl
        · rw [hb] at hf
          simp [Except.isOk, Except.toBool] at hf
      rcases h2 : resolveResolverOpt o.urlResolver d.urlResolver with e | ures
      · have hr := resolveResolverOpt_isOk o.urlResolver d.urlResolver
        rw [h2] at hr
        have hinv : (o.urlResolver.truthy && !o.urlResolver.isFn && !o.urlResolver.isMap)
            = true := by
          cases hb : (o.urlResolver.truthy && !o.urlResolver.isFn && !o.urlResolver.isMap)
          · rw [hb] at hr
            simp [Except.isOk, Except.toBool] at hr
          · rfl
        simp [resolveConstructorOptions, h1, h2, hok1, hinv, Except.isOk, Except.toBool]
      · have hr := resolveResolverOpt_isOk o.urlResolver d.urlResolver
        rw [h2] at hr
        have hok2 : (o.urlResolver.truthy && !o.urlResolver.isFn && !o.urlResolver.isMap)
            = false := by
          cases hb : (o.urlResolver.truthy && !o.urlResolver.isFn && !o.urlResolver.isMap)
          · rfl
          · rw [hb] at hr
            simp [Except.isOk, Except.toBool] at hr
        rcases h3 : resolveLoaderOpt o.loader d.loader with e | ldr
        · have hl := resolveLoaderOpt_isOk o.loader d.loader
          rw [h3] at hl
          have hinv : (o.loader.truthy && !o.loader.isFn) = true := by
            cases hb : (o.loader.truthy && !o.loader.isFn)
            · rw [hb] at hl
              simp [Except.isOk, Except.toBool] at hl
            · rfl
          simp [resolveConstructorOptions, h1, h2, h3, hok1, hok2, hinv,
                Except.isOk, Except.toBool]
        · have hl := resolveLoaderOpt_isOk o.loader d.loader
          rw [h3] at hl
          have hok3 : (o.loader.truthy && !o.loader.isFn) = false := by
            cases hb : (o.loader.truthy && !o.loader.isFn)
            · rfl
            · rw [hb] at hl
              simp [Except.isOk, Except.toBool] at hl
          simp [resolveConstructorOptions, h1, h2, h3, hok1, hok2, hok3,
                Except.isOk, Except.toBool]
  · intro entries name h
    unfold mapGet
    rw [h]
    rfl

/-- Witness for C8 at a concrete input: the Map-lookup resolver yields
undefined for a name absent from the table. -/
theorem c8_constructor_options_witness :
    (([] : List (String × UrlResult)).find? (fun p => p.1 == "a")) = none
    ∧ mapGet [] "a" = UrlResult.undefinedVal :=
  ⟨rfl, c8_constructor_options.2.2.2 [] "a" rfl⟩

end LazyLoader
